import Mathlib

/-!
Verification of the Shadowrun dice resolution engine of the sharad
repository: shadowrun_dice_roll and struct RollResult in src/src/utils.rs,
and the roll_dice tool-call plumbing in src/src/assistant.rs.

The Rust RNG (rand::thread_rng with gen_range(1..=6)) is modelled as a
stream faces : ℕ → ℕ of successive draws; the position argument counts how
many draws were made so far.  The per-die explosion loop of the Rust code
is not structurally recursive, so the model takes an explicit fuel
bounding the number of draws per die; the Rust loop terminates on a given
stream exactly when some finite fuel suffices.

The Rust accumulators successes and critical_successes have type u8, so
their arithmetic wraps modulo 256 (release-profile semantics); the model
keeps the exact counts in rollDice and applies the wrap when building the
RollResult, which is equivalent to wrapping at each increment.  The ones
accumulator has inferred type i32 and is bounded by the dice count, so it
never wraps.
-/

namespace Sharad

/-- The result record of shadowrun_dice_roll (struct RollResult,
src/src/utils.rs lines 105-112).  In Rust, successes and
critical_successes are u8; here they are the ℕ values already reduced
modulo 256 by u8wrap in shadowrun_dice_roll. -/
structure RollResult where
  successes : ℕ
  critical_successes : ℕ
  glitch : Bool
  critical_glitch : Bool
  is_successful : Bool
deriving DecidableEq

/-- Rust u8 arithmetic wraps modulo 256 (release profile). -/
def u8wrap (n : ℕ) : ℕ := n % 256

/-- One die of the dice loop: the inner explosion loop of
shadowrun_dice_roll (src/src/utils.rs lines 139-153), reading draws from
the stream starting at pos.  Branch order follows the source: face 1
records a one and stops, face 6 records a success and a critical success
and rerolls, a face at least 5 records a success and stops, anything else
stops.  Returns some (successes, critical_successes, ones, next position)
with exact (unwrapped) counts, or none when the loop makes more than fuel
draws. -/
def dieChain (faces : ℕ → ℕ) : ℕ → ℕ → Option (ℕ × ℕ × ℕ × ℕ)
  | 0, _ => none
  | fuel + 1, pos =>
    if faces pos = 1 then some (0, 0, 1, pos + 1)
    else if faces pos = 6 then
      (dieChain faces fuel (pos + 1)).map fun x => (x.1 + 1, x.2.1 + 1, x.2.2.1, x.2.2.2)
    else if 5 ≤ faces pos then some (1, 0, 0, pos + 1)
    else some (0, 0, 0, pos + 1)

/-- The for-loop over the dice pool (src/src/utils.rs line 137): resolves
the dice sequentially and sums their records, threading the stream
position.  Returns the totals (successes, critical_successes, ones, final
position). -/
def rollDice (faces : ℕ → ℕ) (fuel : ℕ) : ℕ → ℕ → Option (ℕ × ℕ × ℕ × ℕ)
  | 0, pos => some (0, 0, 0, pos)
  | n + 1, pos =>
    (dieChain faces fuel pos).bind fun x =>
      (rollDice faces fuel n x.2.2.2).map fun y =>
        (x.1 + y.1, x.2.1 + y.2.1, x.2.2.1 + y.2.2.1, y.2.2.2)

/-- The glitch test of src/src/utils.rs line 156:
ones as f32 / dice_number as f32 >= 0.5, modelled over ℚ.  Both operands
are at most 255 in the Rust program (the pool size is u8 and ones is
bounded by it), hence exactly representable in f32, and IEEE division is
correctly rounded; for denominators up to 255 a quotient strictly below
one half is below it by at least 1/510, far more than the rounding error
near 0.5, so the f32 comparison coincides with the exact rational one.
For dice_number = 0 the Rust expression compares NaN >= 0.5, which is
false; in ℚ division by zero yields 0 and 0 >= 1/2 is false as well, so
the model also agrees on the degenerate case. -/
def glitchCalc (ones dice_number : ℕ) : Bool :=
  decide ((1 : ℚ) / 2 ≤ (ones : ℚ) / (dice_number : ℚ))

/-- shadowrun_dice_roll (src/src/utils.rs lines 133-167) with the RNG as a
stream and explicit fuel: none exactly when some explosion chain exceeds
fuel draws.  The u8 accumulators successes and critical_successes are
wrapped modulo 256; critical_glitch and is_successful read the wrapped
value, as the Rust code reads the u8 variable. -/
def shadowrun_dice_roll (faces : ℕ → ℕ) (fuel dice_number threshold : ℕ) :
    Option RollResult :=
  (rollDice faces fuel dice_number 0).map fun x =>
    ⟨u8wrap x.1, u8wrap x.2.1, glitchCalc x.2.2.1 dice_number,
     glitchCalc x.2.2.1 dice_number && decide (u8wrap x.1 = 0),
     decide (threshold ≤ u8wrap x.1)⟩

/-- The concrete rigged stream of the spec example: initial faces 6
(exploding into a 2), then 5, 1, 1, 1; further draws (never consumed for a
5-die pool) settle on 2. -/
def example6 : ℕ → ℕ := fun i => [6, 2, 5, 1, 1, 1].getD i 2

/-- A stream that always draws 2: every die settles at once with no
success and no one. -/
def twoFaces : ℕ → ℕ := fun _ => 2

/-- A stream that always draws 6: every explosion chain continues
forever. -/
def allSixes : ℕ → ℕ := fun _ => 6

/-- A stream of 256 sixes followed by 2s: a single die explodes 256
times, overflowing the u8 successes accumulator. -/
def faces256 : ℕ → ℕ := fun i => if i < 256 then 6 else 2

/-- A stream of 255 sixes followed by 5s: a single die records 256
successes (wrapping to 0) but only 255 critical successes. -/
def faces255 : ℕ → ℕ := fun i => if i < 255 then 6 else 5

/-- Unfolding shadowrun_dice_roll over a known rollDice outcome. -/
lemma shadowrun_eq (faces : ℕ → ℕ) (fuel d t s c o p : ℕ)
    (h : rollDice faces fuel d 0 = some (s, c, o, p)) :
    shadowrun_dice_roll faces fuel d t =
      some ⟨u8wrap s, u8wrap c, glitchCalc o d,
            glitchCalc o d && decide (u8wrap s = 0), decide (t ≤ u8wrap s)⟩ := by
  unfold shadowrun_dice_roll
  rw [h]
  rfl

/-- Zero dice never glitch: the model of NaN >= 0.5 is false. -/
lemma glitchCalc_zero_den (o : ℕ) : glitchCalc o 0 = false := by
  unfold glitchCalc
  rw [Nat.cast_zero, div_zero]
  exact decide_eq_false (by norm_num)

/-- For a positive pool, the rational glitch test is the integer test
2 * ones >= dice_number. -/
lemma glitchCalc_iff (o d : ℕ) (hd : 0 < d) : glitchCalc o d = true ↔ d ≤ 2 * o := by
  unfold glitchCalc
  rw [decide_eq_true_eq]
  rw [div_le_div_iff₀ (by norm_num) (by exact_mod_cast hd)]
  rw [one_mul, mul_comm]
  constructor
  · intro h
    exact_mod_cast h
  · intro h
    exact_mod_cast h

/-- Running one explosion chain over a stream showing k sixes and then a
settling face: the die records k + 1 draws, k critical successes, one
extra success exactly when the settling face passes the 5-or-more test,
and one one exactly when it is a 1. -/
lemma dieChain_run (faces : ℕ → ℕ) :
    ∀ (k pos fuel : ℕ), (∀ j, j < k → faces (pos + j) = 6) → faces (pos + k) ≠ 6 →
    k < fuel →
    dieChain faces fuel pos =
      some (k + (if faces (pos + k) = 1 then 0 else if 5 ≤ faces (pos + k) then 1 else 0),
            k, (if faces (pos + k) = 1 then 1 else 0), pos + k + 1) := by
  intro k
  induction k with
  | zero =>
    intro pos fuel h6 hne hf
    obtain ⟨m, rfl⟩ : ∃ m, fuel = m + 1 := ⟨fuel - 1, by omega⟩
    have hne0 : faces pos ≠ 6 := by simpa using hne
    simp only [dieChain, Nat.add_zero, Nat.zero_add]
    by_cases h1 : faces pos = 1
    · simp [h1]
    · by_cases h5 : 5 ≤ faces pos
      · simp [h1, hne0, h5]
      · simp [h1, hne0, h5]
  | succ k ih =>
    intro pos fuel h6 hne hf
    obtain ⟨m, rfl⟩ : ∃ m, fuel = m + 1 := ⟨fuel - 1, by omega⟩
    have hpos6 : faces pos = 6 := by
      have := h6 0 (by omega)
      simpa using this
    have hshift : pos + (k + 1) = pos + 1 + k := by omega
    rw [hshift] at hne ⊢
    have h6s : ∀ j, j < k → faces (pos + 1 + j) = 6 := by
      intro j hj
      have := h6 (j + 1) (by omega)
      rwa [show pos + (j + 1) = pos + 1 + j from by omega] at this
    simp only [dieChain]
    rw [if_neg (by simp [hpos6]), if_pos hpos6, ih (pos + 1) m h6s hne (by omega),
      Option.map_some']
    generalize (if faces (pos + 1 + k) = 1 then 0 else if 5 ≤ faces (pos + 1 + k) then 1 else 0) = B
    generalize (if faces (pos + 1 + k) = 1 then 1 else 0) = O
    simp only [Option.some.injEq, Prod.mk.injEq]
    exact ⟨by omega, trivial⟩

/-- Inversion: a successful explosion chain consists of k sixes followed
by a settling face, for some k below the fuel. -/
lemma dieChain_structure (faces : ℕ → ℕ) :
    ∀ (fuel pos s c o p : ℕ), dieChain faces fuel pos = some (s, c, o, p) →
    ∃ k, k < fuel ∧ (∀ j, j < k → faces (pos + j) = 6) ∧ faces (pos + k) ≠ 6 ∧
      s = k + (if faces (pos + k) = 1 then 0 else if 5 ≤ faces (pos + k) then 1 else 0) ∧
      c = k ∧ o = (if faces (pos + k) = 1 then 1 else 0) ∧ p = pos + k + 1 := by
  intro fuel
  induction fuel with
  | zero =>
    intro pos s c o p h
    simp [dieChain] at h
  | succ m ih =>
    intro pos s c o p h
    simp only [dieChain] at h
    by_cases h1 : faces pos = 1
    · rw [if_pos h1] at h
      simp only [Option.some.injEq, Prod.mk.injEq] at h
      obtain ⟨hs, hc, ho, hp⟩ := h
      refine ⟨0, by omega, by omega, ?_, ?_, by omega, ?_, by omega⟩
      · simp [h1]
      · simp [h1]; omega
      · simp [h1]; omega
    · rw [if_neg h1] at h
      by_cases h6 : faces pos = 6
      · rw [if_pos h6] at h
        rw [Option.map_eq_some'] at h
        obtain ⟨⟨s0, c0, o0, p0⟩, hx, hfx⟩ := h
        simp only [Prod.mk.injEq] at hfx
        obtain ⟨hs, hc, ho, hp⟩ := hfx
        obtain ⟨k, hk, hrun, hset, hs0, hc0, ho0, hp0⟩ := ih (pos + 1) s0 c0 o0 p0 hx
        have hshift : pos + (k + 1) = pos + 1 + k := by omega
        refine ⟨k + 1, by omega, ?_, by rwa [hshift], ?_, by omega, ?_, by omega⟩
        · intro j hj
          rcases Nat.eq_zero_or_pos j with hj0 | hj0
          · rw [hj0, Nat.add_zero]; exact h6
          · obtain ⟨j0, rfl⟩ : ∃ j0, j = j0 + 1 := ⟨j - 1, by omega⟩
            have := hrun j0 (by omega)
            rwa [show pos + (j0 + 1) = pos + 1 + j0 from by omega]
        · rw [hshift]; omega
        · rw [hshift]; omega
      · rw [if_neg h6] at h
        by_cases h5 : 5 ≤ faces pos
        · rw [if_pos h5] at h
          simp only [Option.some.injEq, Prod.mk.injEq] at h
          obtain ⟨hs, hc, ho, hp⟩ := h
          refine ⟨0, by omega, by omega, ?_, ?_, by omega, ?_, by omega⟩
          · rwa [Nat.add_zero]
          · rw [Nat.add_zero, if_neg h1, if_pos h5]; omega
          · rw [Nat.add_zero, if_neg h1]; omega
        · rw [if_neg h5] at h
          simp only [Option.some.injEq, Prod.mk.injEq] at h
          obtain ⟨hs, hc, ho, hp⟩ := h
          refine ⟨0, by omega, by omega, ?_, ?_, by omega, ?_, by omega⟩
          · rwa [Nat.add_zero]
          · rw [Nat.add_zero, if_neg h1, if_neg h5]; omega
          · rw [Nat.add_zero, if_neg h1]; omega

/-- Adding fuel never changes a chain that already finished. -/
lemma dieChain_mono (faces : ℕ → ℕ) (fuel fuel' pos s c o p : ℕ)
    (h : dieChain faces fuel pos = some (s, c, o, p)) (hle : fuel ≤ fuel') :
    dieChain faces fuel' pos = some (s, c, o, p) := by
  obtain ⟨k, hk, hrun, hset, hs, hc, ho, hp⟩ := dieChain_structure faces fuel pos s c o p h
  rw [dieChain_run faces k pos fuel' hrun hset (by omega), hs, hc, ho, hp]

/-- Adding fuel never changes a dice loop that already finished. -/
lemma rollDice_mono (faces : ℕ → ℕ) (fuel fuel' : ℕ) (hle : fuel ≤ fuel') :
    ∀ (n pos out), rollDice faces fuel n pos = some out →
    rollDice faces fuel' n pos = some out := by
  intro n
  induction n with
  | zero =>
    intro pos out h
    simpa [rollDice] using h
  | succ m ih =>
    intro pos out h
    simp only [rollDice] at h ⊢
    rw [Option.bind_eq_some] at h
    obtain ⟨⟨s, c, o, p⟩, hx, hrest⟩ := h
    rw [dieChain_mono faces fuel fuel' pos s c o p hx hle, Option.some_bind]
    rw [Option.map_eq_some'] at hrest
    obtain ⟨y, hy, hfy⟩ := hrest
    rw [ih p y hy, Option.map_some', hfy]

/-- A finished dice loop has at most one recorded one per die, and never
more critical successes than successes (exact counts). -/
lemma rollDice_bounds (faces : ℕ → ℕ) (fuel : ℕ) :
    ∀ (n pos s c o p : ℕ), rollDice faces fuel n pos = some (s, c, o, p) →
    c ≤ s ∧ o ≤ n := by
  intro n
  induction n with
  | zero =>
    intro pos s c o p h
    simp only [rollDice, Option.some.injEq, Prod.mk.injEq] at h
    omega
  | succ m ih =>
    intro pos s c o p h
    simp only [rollDice] at h
    rw [Option.bind_eq_some] at h
    obtain ⟨⟨s0, c0, o0, p0⟩, hx, hrest⟩ := h
    rw [Option.map_eq_some'] at hrest
    obtain ⟨⟨s1, c1, o1, p1⟩, hy, hfy⟩ := hrest
    simp only [Prod.mk.injEq] at hfy
    obtain ⟨k, hk, hrun, hset, hs0, hc0, ho0, hp0⟩ :=
      dieChain_structure faces fuel pos s0 c0 o0 p0 hx
    have hone : o0 ≤ 1 := by rw [ho0]; split <;> omega
    have hcs : c0 ≤ s0 := by omega
    have := ih p0 s1 c1 o1 p1 hy
    omega

/-- A positive pool glitches when at least half the dice rolled ones. -/
lemma glitchCalc_true (o d : ℕ) (hd : 0 < d) (h : d ≤ 2 * o) : glitchCalc o d = true :=
  (glitchCalc_iff o d hd).mpr h

/-- A positive pool does not glitch when fewer than half the dice rolled
ones. -/
lemma glitchCalc_false (o d : ℕ) (hd : 0 < d) (h : ¬ d ≤ 2 * o) : glitchCalc o d = false :=
  Bool.eq_false_iff.mpr fun hT => h ((glitchCalc_iff o d hd).mp hT)

/-- Rolling zero dice: the loop body never runs, the glitch ratio is the
degenerate 0 / 0 case, and only the threshold comparison varies. -/
lemma roll_zero_dice (faces : ℕ → ℕ) (fuel t : ℕ) :
    shadowrun_dice_roll faces fuel 0 t = some ⟨0, 0, false, false, decide (t = 0)⟩ := by
  have h : rollDice faces fuel 0 0 = some (0, 0, 0, 0) := rfl
  rw [shadowrun_eq faces fuel 0 t 0 0 0 0 h]
  simp only [show u8wrap 0 = 0 from rfl, glitchCalc_zero_den, Bool.false_and]
  simp [decide_eq_decide, Nat.le_zero]

/-- C1: for dice_number = 0 and every threshold, shadowrun_dice_roll
returns successes = 0, critical_successes = 0, glitch = false,
critical_glitch = false, and is_successful true exactly when the
threshold is 0; the glitch ratio with a zero dice count yields no error
and zero dice never glitch. -/
theorem claim_C1 (faces : ℕ → ℕ) (fuel threshold : ℕ) :
    shadowrun_dice_roll faces fuel 0 threshold =
      some ⟨0, 0, false, false, decide (threshold = 0)⟩ :=
  roll_zero_dice faces fuel threshold

/-- C2 counterexample: on a stream where one die explodes 256 times and
then settles on a 2, the exact success and critical-success counts are
256, which exceeds the u8 maximum 255, so the u8 accumulators overflow:
the returned RollResult reports 0 successes instead of 256. -/
theorem claim_C2_counterexample :
    rollDice faces256 300 1 0 = some (256, 256, 0, 257) ∧
    ¬ (256 ≤ 255) ∧
    shadowrun_dice_roll faces256 300 1 0 = some ⟨0, 0, false, false, true⟩ := by
  have hroll : rollDice faces256 300 1 0 = some (256, 256, 0, 257) := by
    have hchain := dieChain_run faces256 256 0 300
      (fun j hj => by simp only [faces256, Nat.zero_add]; rw [if_pos hj])
      (by simp [faces256]) (by omega)
    simp only [faces256] at hchain
    norm_num at hchain
    simp only [rollDice]
    rw [hchain, Option.some_bind, Option.map_some']
    rfl
  refine ⟨hroll, by omega, ?_⟩
  rw [shadowrun_eq faces256 300 1 0 256 256 0 257 hroll,
    glitchCalc_false 0 1 (by norm_num) (by norm_num)]
  decide

/-- C2 amended: for every input and face stream, whenever the dice loop
finishes within fuel, shadowrun_dice_roll returns a RollResult (no
failure under the wrapping u8 semantics); the ones accumulator is bounded
by the dice count (so the i32 ones counter cannot overflow), and the
successes and critical_successes fields are the exact counts reduced
modulo 256, exact whenever the exact counts are at most 255 — but the u8
accumulators do wrap when exploding sixes push a count past 255. -/
theorem claim_C2_amended (faces : ℕ → ℕ) (fuel d t s c o p : ℕ)
    (h : rollDice faces fuel d 0 = some (s, c, o, p)) :
    o ≤ d ∧
    shadowrun_dice_roll faces fuel d t =
      some ⟨u8wrap s, u8wrap c, glitchCalc o d,
            glitchCalc o d && decide (u8wrap s = 0), decide (t ≤ u8wrap s)⟩ ∧
    (s ≤ 255 → u8wrap s = s) ∧ (c ≤ 255 → u8wrap c = c) := by
  refine ⟨(rollDice_bounds faces fuel d 0 s c o p h).2,
    shadowrun_eq faces fuel d t s c o p h, ?_, ?_⟩
  · intro hs
    exact Nat.mod_eq_of_lt (by omega)
  · intro hc
    exact Nat.mod_eq_of_lt (by omega)

theorem claim_C2_witness :
    rollDice twoFaces 1 1 0 = some (0, 0, 0, 1) ∧
    (0 ≤ 1 ∧
     shadowrun_dice_roll twoFaces 1 1 0 =
       some ⟨u8wrap 0, u8wrap 0, glitchCalc 0 1,
             glitchCalc 0 1 && decide (u8wrap 0 = 0), decide (0 ≤ u8wrap 0)⟩ ∧
     (0 ≤ 255 → u8wrap 0 = 0) ∧ (0 ≤ 255 → u8wrap 0 = 0)) :=
  ⟨by decide, claim_C2_amended twoFaces 1 1 0 0 0 0 1 (by decide)⟩

/-- C3 counterexample: the all-sixes stream draws only valid faces in
[1, 6], yet with one die the explosion chain never settles: no fuel makes
shadowrun_dice_roll return, so the function is not total over every
infinite stream of faces in [1, 6]. -/
theorem claim_C3_counterexample :
    (∀ i, 1 ≤ allSixes i ∧ allSixes i ≤ 6) ∧
    ¬ ∃ fuel r, shadowrun_dice_roll allSixes fuel 1 0 = some r := by
  constructor
  · intro i
    exact ⟨by norm_num [allSixes], by norm_num [allSixes]⟩
  · rintro ⟨fuel, r, hr⟩
    have hnone : ∀ f pos, dieChain allSixes f pos = none := by
      intro f
      induction f with
      | zero => intro pos; rfl
      | succ m ih =>
        intro pos
        simp only [dieChain]
        rw [if_neg (by norm_num [allSixes]), if_pos (by norm_num [allSixes]), ih (pos + 1)]
        rfl
    have hroll : rollDice allSixes fuel 1 0 = none := by
      simp only [rollDice]
      rw [hnone fuel 0]
      rfl
    unfold shadowrun_dice_roll at hr
    rw [hroll] at hr
    exact Option.noConfusion hr

/-- C3 amended: on every stream in which sixes do not continue forever
from any position (every explosion chain eventually draws a non-six),
shadowrun_dice_roll terminates: some fuel makes it return a RollResult,
for every dice_number and threshold. -/
theorem claim_C3_amended (faces : ℕ → ℕ)
    (h : ∀ pos, ∃ k, faces (pos + k) ≠ 6) (d t : ℕ) :
    ∃ fuel r, shadowrun_dice_roll faces fuel d t = some r := by
  have hchain : ∀ pos, ∃ fuel out, dieChain faces fuel pos = some out := by
    intro pos
    have hex := h pos
    have hk : faces (pos + Nat.find hex) ≠ 6 := Nat.find_spec hex
    have hmin : ∀ j, j < Nat.find hex → faces (pos + j) = 6 := by
      intro j hj
      exact not_not.mp (Nat.find_min hex hj)
    exact ⟨Nat.find hex + 1, _,
      dieChain_run faces (Nat.find hex) pos (Nat.find hex + 1) hmin hk (by omega)⟩
  have hroll : ∀ n pos, ∃ fuel out, rollDice faces fuel n pos = some out := by
    intro n
    induction n with
    | zero => intro pos; exact ⟨0, (0, 0, 0, pos), rfl⟩
    | succ m ih =>
      intro pos
      obtain ⟨f1, ⟨s0, c0, o0, p0⟩, h1⟩ := hchain pos
      obtain ⟨f2, ⟨s1, c1, o1, p1⟩, h2⟩ := ih p0
      refine ⟨max f1 f2, (s0 + s1, c0 + c1, o0 + o1, p1), ?_⟩
      simp only [rollDice]
      rw [dieChain_mono faces f1 (max f1 f2) pos s0 c0 o0 p0 h1 (le_max_left f1 f2),
        Option.some_bind,
        rollDice_mono faces f2 (max f1 f2) (le_max_right f1 f2) m p0 (s1, c1, o1, p1) h2,
        Option.map_some']
  obtain ⟨fuel, ⟨s, c, o, p⟩, hro⟩ := hroll d 0
  exact ⟨fuel, _, shadowrun_eq faces fuel d t s c o p hro⟩

theorem claim_C3_witness :
    (∀ pos : ℕ, ∃ k, twoFaces (pos + k) ≠ 6) ∧
    ∃ fuel r, shadowrun_dice_roll twoFaces fuel 2 0 = some r :=
  ⟨fun pos => ⟨0, by norm_num [twoFaces]⟩,
   claim_C3_amended twoFaces (fun pos => ⟨0, by norm_num [twoFaces]⟩) 2 0⟩

/-- C5: for a positive pool, the returned glitch flag is true exactly
when the ones fraction reaches one half, that is, exactly when twice the
number of dice whose chain ended on a 1 is at least the dice count. -/
theorem claim_C5 (faces : ℕ → ℕ) (fuel d t s c o p : ℕ) (hd : 0 < d)
    (h : rollDice faces fuel d 0 = some (s, c, o, p)) :
    ∃ r, shadowrun_dice_roll faces fuel d t = some r ∧
      (r.glitch = true ↔ d ≤ 2 * o) :=
  ⟨_, shadowrun_eq faces fuel d t s c o p h, glitchCalc_iff o d hd⟩

theorem claim_C5_witness :
    0 < 1 ∧ rollDice twoFaces 1 1 0 = some (0, 0, 0, 1) ∧
    ∃ r, shadowrun_dice_roll twoFaces 1 1 0 = some r ∧
      (r.glitch = true ↔ 1 ≤ 2 * 0) :=
  ⟨by decide, by decide, claim_C5 twoFaces 1 1 0 0 0 0 1 (by decide) (by decide)⟩

set_option maxRecDepth 4000 in
/-- C6 counterexample: on a stream where one die explodes 255 times and
settles on a 5, the exact counts are 256 successes and 255 critical
successes; the u8 successes accumulator wraps to 0, so the returned
RollResult has critical_successes = 255 > successes = 0. -/
theorem claim_C6_counterexample :
    shadowrun_dice_roll faces255 300 1 0 = some ⟨0, 255, false, false, true⟩ ∧
    ¬ (255 ≤ 0) := by
  have hroll : rollDice faces255 300 1 0 = some (256, 255, 0, 256) := by decide
  rw [shadowrun_eq faces255 300 1 0 256 255 0 256 hroll,
    glitchCalc_false 0 1 (by norm_num) (by norm_num)]
  exact ⟨by decide, by decide⟩

/-- C6 amended: the exact counts always satisfy critical_successes ≤
successes, and whenever the exact success count is at most 255 (no u8
overflow) the returned RollResult satisfies critical_successes ≤
successes as well. -/
theorem claim_C6_amended (faces : ℕ → ℕ) (fuel d t s c o p : ℕ)
    (h : rollDice faces fuel d 0 = some (s, c, o, p)) :
    c ≤ s ∧ (s ≤ 255 → ∀ r, shadowrun_dice_roll faces fuel d t = some r →
      r.critical_successes ≤ r.successes) := by
  have hb := rollDice_bounds faces fuel d 0 s c o p h
  refine ⟨hb.1, ?_⟩
  intro hs r hr
  rw [shadowrun_eq faces fuel d t s c o p h] at hr
  injection hr with hr
  subst hr
  show c % 256 ≤ s % 256
  rw [Nat.mod_eq_of_lt (show c < 256 by omega), Nat.mod_eq_of_lt (show s < 256 by omega)]
  exact hb.1

theorem claim_C6_witness :
    rollDice twoFaces 1 1 0 = some (0, 0, 0, 1) ∧
    (0 ≤ 0 ∧ (0 ≤ 255 → ∀ r, shadowrun_dice_roll twoFaces 1 1 0 = some r →
      r.critical_successes ≤ r.successes)) :=
  ⟨by decide, claim_C6_amended twoFaces 1 1 0 0 0 0 1 (by decide)⟩

/-- C7: every returned RollResult has critical_glitch equal to
glitch AND successes == 0, and therefore critical_glitch implies
glitch. -/
theorem claim_C7 (faces : ℕ → ℕ) (fuel d t : ℕ) (r : RollResult)
    (h : shadowrun_dice_roll faces fuel d t = some r) :
    r.critical_glitch = (r.glitch && decide (r.successes = 0)) ∧
    (r.critical_glitch = true → r.glitch = true) := by
  unfold shadowrun_dice_roll at h
  rw [Option.map_eq_some'] at h
  obtain ⟨⟨s, c, o, p⟩, hx, hr⟩ := h
  subst hr
  refine ⟨rfl, ?_⟩
  show (glitchCalc o d && decide (u8wrap s = 0)) = true → glitchCalc o d = true
  intro hcg
  cases hg : glitchCalc o d
  · rw [hg] at hcg
    simp at hcg
  · rfl

theorem claim_C7_witness :
    shadowrun_dice_roll twoFaces 1 1 0 = some ⟨0, 0, false, false, true⟩ ∧
    ((⟨0, 0, false, false, true⟩ : RollResult).critical_glitch =
      ((⟨0, 0, false, false, true⟩ : RollResult).glitch &&
        decide ((⟨0, 0, false, false, true⟩ : RollResult).successes = 0)) ∧
     ((⟨0, 0, false, false, true⟩ : RollResult).critical_glitch = true →
      (⟨0, 0, false, false, true⟩ : RollResult).glitch = true)) := by
  have h : shadowrun_dice_roll twoFaces 1 1 0 = some ⟨0, 0, false, false, true⟩ := by
    rw [shadowrun_eq twoFaces 1 1 0 0 0 0 1 (by decide),
      glitchCalc_false 0 1 (by norm_num) (by norm_num)]
    decide
  exact ⟨h, claim_C7 twoFaces 1 1 0 ⟨0, 0, false, false, true⟩ h⟩

/-- C8: on the rigged stream 6, 2, 5, 1, 1, 1 with five dice, the roll
yields successes = 2, critical_successes = 1, glitch = true (3 ones out
of 5 dice), critical_glitch = false, and is_successful for threshold 2
but not for threshold 3. -/
theorem claim_C8 :
    shadowrun_dice_roll example6 10 5 2 = some ⟨2, 1, true, false, true⟩ ∧
    shadowrun_dice_roll example6 10 5 3 = some ⟨2, 1, true, false, false⟩ := by
  have hroll : rollDice example6 10 5 0 = some (2, 1, 3, 6) := by decide
  have hg : glitchCalc 3 5 = true := glitchCalc_true 3 5 (by norm_num) (by norm_num)
  constructor
  · rw [shadowrun_eq example6 10 5 2 2 1 3 6 hroll, hg]
    decide
  · rw [shadowrun_eq example6 10 5 3 2 1 3 6 hroll, hg]
    decide

/-- Spec-side view of a run: each die is described by the pair (k, f) of
its number of exploding sixes and its settling face; flatSegs lays these
per-die chains out as the sequence of draws the run consumes. -/
def flatSegs : List (ℕ × ℕ) → List ℕ
  | [] => []
  | (k, f) :: rest => List.replicate k 6 ++ f :: flatSegs rest

/-- Per-die successes of the spec rules, summed: each six records one
success, a settling 5 records one success, other settling faces record
none. -/
def specSucc : List (ℕ × ℕ) → ℕ
  | [] => 0
  | (k, f) :: rest => (k + if f = 5 then 1 else 0) + specSucc rest

/-- Per-die critical successes of the spec rules, summed: one per rolled
six. -/
def specCrit : List (ℕ × ℕ) → ℕ
  | [] => 0
  | (k, _) :: rest => k + specCrit rest

/-- Per-die ones of the spec rules, summed: one exactly when the die
settles on a 1. -/
def specOnes : List (ℕ × ℕ) → ℕ
  | [] => 0
  | (_, f) :: rest => (if f = 1 then 1 else 0) + specOnes rest

lemma flatSegs_cons_length (k f : ℕ) (L : List (ℕ × ℕ)) :
    (flatSegs ((k, f) :: L)).length = k + 1 + (flatSegs L).length := by
  simp only [flatSegs, List.length_append, List.length_replicate, List.length_cons]
  omega

/-- Decomposition of the loop accumulators: every finished run over a
stream of valid faces splits into independent per-die explosion chains,
one per die, each consisting of some number k of sixes and a settling
non-six face, read consecutively off the stream; the exact (pre-wrap)
accumulator totals are the sums of the per-die records of the spec rules
(6: one success and one critical success and reroll; 5: one success;
1: one one; 2, 3, 4: nothing). -/
lemma rollDice_decomp (faces : ℕ → ℕ) (hv : ∀ i, 1 ≤ faces i ∧ faces i ≤ 6) :
    ∀ (n fuel pos s c o p : ℕ), rollDice faces fuel n pos = some (s, c, o, p) →
    ∃ L : List (ℕ × ℕ), n = L.length ∧ (∀ q ∈ L, q.2 ≠ 6) ∧
      (∀ i, i < (flatSegs L).length → faces (pos + i) = (flatSegs L).getD i 2) ∧
      s = specSucc L ∧ c = specCrit L ∧ o = specOnes L ∧
      p = pos + (flatSegs L).length := by
  intro n
  induction n with
  | zero =>
    intro fuel pos s c o p h
    simp only [rollDice, Option.some.injEq, Prod.mk.injEq] at h
    refine ⟨[], rfl, by simp, by simp [flatSegs], ?_, ?_, ?_, ?_⟩ <;>
      simp [flatSegs, specSucc, specCrit, specOnes] <;> omega
  | succ m ih =>
    intro fuel pos s c o p h
    simp only [rollDice] at h
    rw [Option.bind_eq_some] at h
    obtain ⟨⟨s0, c0, o0, p0⟩, hx, hrest⟩ := h
    rw [Option.map_eq_some'] at hrest
    obtain ⟨⟨s1, c1, o1, p1⟩, hy, hfy⟩ := hrest
    simp only [Prod.mk.injEq] at hfy
    obtain ⟨hs, hc, ho, hp⟩ := hfy
    obtain ⟨k, hk, hrun, hset, hs0, hc0, ho0, hp0⟩ :=
      dieChain_structure faces fuel pos s0 c0 o0 p0 hx
    obtain ⟨L, hlen, hnosix, hreal, hs1, hc1, ho1, hp1⟩ :=
      ih fuel p0 s1 c1 o1 p1 hy
    have hf1 : 1 ≤ faces (pos + k) := (hv (pos + k)).1
    have hf6 : faces (pos + k) ≤ 6 := (hv (pos + k)).2
    have hB : (if faces (pos + k) = 1 then 0 else if 5 ≤ faces (pos + k) then 1 else 0) =
        (if faces (pos + k) = 5 then 1 else 0) := by
      by_cases e1 : faces (pos + k) = 1
      · rw [if_pos e1, if_neg (by omega)]
      · rw [if_neg e1]
        by_cases e5 : faces (pos + k) = 5
        · rw [if_pos (by omega), if_pos e5]
        · rw [if_neg (by omega), if_neg e5]
    refine ⟨(k, faces (pos + k)) :: L, by simp [hlen], ?_, ?_, ?_, ?_, ?_, ?_⟩
    · intro q hq
      rcases List.mem_cons.mp hq with hq | hq
      · rw [hq]
        exact hset
      · exact hnosix q hq
    · intro i hi
      rw [flatSegs_cons_length] at hi
      show faces (pos + i) = (List.replicate k 6 ++ faces (pos + k) :: flatSegs L).getD i 2
      rcases Nat.lt_trichotomy i k with hik | hik | hik
      · rw [List.getD_append _ _ _ _ (by simpa using hik),
          List.getD_eq_getElem _ _ (by simpa using hik)]
        simp only [List.getElem_replicate]
        exact hrun i hik
      · subst hik
        rw [List.getD_append_right _ _ _ _ (by simp)]
        simp
      · rw [List.getD_append_right _ _ _ _ (by simp; omega)]
        obtain ⟨j, hj⟩ : ∃ j, i - (List.replicate k 6).length = j + 1 :=
          ⟨i - k - 1, by simp; omega⟩
        rw [hj, List.getD_cons_succ]
        have hidx : pos + i = p0 + j := by
          simp only [List.length_replicate] at hj
          omega
        rw [hidx]
        exact hreal j (by simp only [List.length_replicate] at hj; omega)
    · show s = (k + if faces (pos + k) = 5 then 1 else 0) + specSucc L
      rw [← hB]
      omega
    · show c = k + specCrit L
      omega
    · show o = (if faces (pos + k) = 1 then 1 else 0) + specOnes L
      omega
    · rw [flatSegs_cons_length]
      omega

set_option maxRecDepth 4000 in
/-- C4 counterexample: on the valid stream of 255 sixes then 5s, a
single die is one per-die chain with record sum 256 successes and 255
critical successes ([(255, 5)] is exactly the decomposition the stream
realizes), the loop accumulators reach those sums, yet the RETURNED
RollResult reports successes = 0: the returned field is not the per-die
record sum, because the u8 accumulator wraps modulo 256. -/
theorem claim_C4_counterexample :
    (∀ i, 1 ≤ faces255 i ∧ faces255 i ≤ 6) ∧
    (∀ i, i < (flatSegs [(255, 5)]).length →
      faces255 i = (flatSegs [(255, 5)]).getD i 2) ∧
    specSucc [(255, 5)] = 256 ∧
    rollDice faces255 300 1 0 =
      some (specSucc [(255, 5)], specCrit [(255, 5)], specOnes [(255, 5)], 256) ∧
    shadowrun_dice_roll faces255 300 1 0 = some ⟨0, 255, false, false, true⟩ ∧
    (0 : ℕ) ≠ specSucc [(255, 5)] := by
  have hroll : rollDice faces255 300 1 0 = some (256, 255, 0, 256) := by decide
  refine ⟨?_, by decide, by decide, by decide, ?_, by decide⟩
  · intro i
    unfold faces255
    split <;> omega
  · rw [shadowrun_eq faces255 300 1 0 256 255 0 256 hroll,
      glitchCalc_false 0 1 (by norm_num) (by norm_num)]
    decide

/-- C4 amended: every finished run over a stream of valid faces resolves
each die independently by exactly the per-die rules, as a chain of k
sixes and a settling non-six face read consecutively off the stream; the
exact accumulator totals are the sums of these per-die records, and the
returned successes and critical_successes fields are those sums reduced
modulo 256 (the u8 wrap), equal to the sums whenever they are at most
255. -/
theorem claim_C4_amended (faces : ℕ → ℕ) (hv : ∀ i, 1 ≤ faces i ∧ faces i ≤ 6)
    (n fuel t s c o p : ℕ) (h : rollDice faces fuel n 0 = some (s, c, o, p)) :
    ∃ L : List (ℕ × ℕ), n = L.length ∧ (∀ q ∈ L, q.2 ≠ 6) ∧
      (∀ i, i < (flatSegs L).length → faces i = (flatSegs L).getD i 2) ∧
      s = specSucc L ∧ c = specCrit L ∧ o = specOnes L ∧ p = (flatSegs L).length ∧
      ∃ r, shadowrun_dice_roll faces fuel n t = some r ∧
        r.successes = u8wrap (specSucc L) ∧
        r.critical_successes = u8wrap (specCrit L) ∧
        (specSucc L ≤ 255 → r.successes = specSucc L) ∧
        (specCrit L ≤ 255 → r.critical_successes = specCrit L) := by
  obtain ⟨L, hlen, hns, hreal, hs, hc, ho, hp⟩ :=
    rollDice_decomp faces hv n fuel 0 s c o p h
  refine ⟨L, hlen, hns, ?_, hs, hc, ho, by omega, ?_⟩
  · intro i hi
    have := hreal i hi
    rwa [Nat.zero_add] at this
  · refine ⟨_, shadowrun_eq faces fuel n t s c o p h, ?_, ?_, ?_, ?_⟩
    · show u8wrap s = u8wrap (specSucc L)
      rw [hs]
    · show u8wrap c = u8wrap (specCrit L)
      rw [hc]
    · intro hle
      show u8wrap s = specSucc L
      rw [hs]
      exact Nat.mod_eq_of_lt (by omega)
    · intro hle
      show u8wrap c = specCrit L
      rw [hc]
      exact Nat.mod_eq_of_lt (by omega)

theorem claim_C4_witness :
    (∀ i, 1 ≤ twoFaces i ∧ twoFaces i ≤ 6) ∧
    rollDice twoFaces 1 1 0 = some (0, 0, 0, 1) ∧
    ∃ L : List (ℕ × ℕ), 1 = L.length ∧ (∀ q ∈ L, q.2 ≠ 6) ∧
      (∀ i, i < (flatSegs L).length → twoFaces i = (flatSegs L).getD i 2) ∧
      0 = specSucc L ∧ 0 = specCrit L ∧ 0 = specOnes L ∧ 1 = (flatSegs L).length ∧
      ∃ r, shadowrun_dice_roll twoFaces 1 1 0 = some r ∧
        r.successes = u8wrap (specSucc L) ∧
        r.critical_successes = u8wrap (specCrit L) ∧
        (specSucc L ≤ 255 → r.successes = specSucc L) ∧
        (specCrit L ≤ 255 → r.critical_successes = specCrit L) := by
  have hv : ∀ i, 1 ≤ twoFaces i ∧ twoFaces i ≤ 6 :=
    fun i => ⟨by norm_num [twoFaces], by norm_num [twoFaces]⟩
  exact ⟨hv, by decide, claim_C4_amended twoFaces hv 1 1 0 0 0 0 1 (by decide)⟩

/-- Minimal model of serde_json values, as far as the tool-call code
reads them: numbers keep the serde_json distinction between non-negative
integers stored as u64 (numU), negative integers stored as i64 (numI)
and floating-point numbers (numF, whose value is irrelevant here);
containers and the rest are carried structurally. -/
inductive Json where
  | null : Json
  | bool (b : Bool) : Json
  | numU (n : ℕ) : Json
  | numI (n : ℤ) : Json
  | numF : Json
  | str (s : String) : Json
  | arr (elems : List Json) : Json
  | obj (fields : List (String × Json)) : Json

/-- Indexing a serde_json Value with a string key (args[...] at
src/src/assistant.rs line 471): field lookup on objects, Null for a
missing key or a non-object. -/
def jIndex (j : Json) (key : String) : Json :=
  match j with
  | .obj fields =>
    match fields.lookup key with
    | some v => v
    | none => .null
  | _ => .null

/-- Value::as_u64 of serde_json: some exactly for numbers stored as
non-negative (u64) integers. -/
def asU64 : Json → Option ℕ
  | .numU n => some n
  | _ => none

/-- Extraction of the roll_dice tool-call arguments (src/src/assistant.rs
lines 471-473): args[...].as_u64().unwrap_or(0) as u8 for dice_number and
threshold; the u64-to-u8 cast truncates modulo 256. -/
def extractDiceArgs (args : Json) : ℕ × ℕ :=
  (u8wrap ((asU64 (jIndex args ("dice_number"))).getD 0),
   u8wrap ((asU64 (jIndex args ("threshold"))).getD 0))

/-- The roll_dice tool-call handler (src/src/assistant.rs lines 469-475):
extract the two arguments from the JSON payload and run the dice
engine. -/
def handleRollDice (args : Json) (faces : ℕ → ℕ) (fuel : ℕ) : Option RollResult :=
  shadowrun_dice_roll faces fuel (extractDiceArgs args).1 (extractDiceArgs args).2

/-- Serialization of a RollResult: derive(Serialize) on the struct of
src/src/utils.rs lines 105-112 emits its fields in declaration order
under their Rust names, and serde_json::to_string
(src/src/assistant.rs line 476) renders that object as the tool output;
modelled as the JSON tree rather than its string rendering. -/
def rollResultToJson (r : RollResult) : Json :=
  .obj [("successes", .numU r.successes),
        ("critical_successes", .numU r.critical_successes),
        ("glitch", .bool r.glitch),
        ("critical_glitch", .bool r.critical_glitch),
        ("is_successful", .bool r.is_successful)]

/-- The field names of a JSON object, in order. -/
def jsonKeys : Json → List String
  | .obj fields => fields.map Prod.fst
  | _ => []

/-- C9: the tool output sent back to the remote model is the JSON object
serialization of the RollResult, with exactly the field names successes,
critical_successes, glitch, critical_glitch and is_successful, each bound
to the corresponding field value. -/
theorem claim_C9 (r : RollResult) :
    jsonKeys (rollResultToJson r) =
      ["successes", "critical_successes", "glitch", "critical_glitch", "is_successful"] ∧
    jIndex (rollResultToJson r) ("successes") = .numU r.successes ∧
    jIndex (rollResultToJson r) ("critical_successes") = .numU r.critical_successes ∧
    jIndex (rollResultToJson r) ("glitch") = .bool r.glitch ∧
    jIndex (rollResultToJson r) ("critical_glitch") = .bool r.critical_glitch ∧
    jIndex (rollResultToJson r) ("is_successful") = .bool r.is_successful :=
  ⟨rfl, rfl, rfl, rfl, rfl, rfl⟩

/-- C10: at the tool-call interface, a dice_number or threshold field
that is missing or not a non-negative integer is replaced by 0, and an
integer value is truncated modulo 256 before the dice are rolled; in
particular a payload with dice_number = 256 rolls zero dice. -/
theorem claim_C10 :
    (∀ fields : List (String × Json), fields.lookup ("dice_number") = none →
      (extractDiceArgs (.obj fields)).1 = 0) ∧
    (∀ args : Json, asU64 (jIndex args ("dice_number")) = none →
      (extractDiceArgs args).1 = 0) ∧
    (∀ args : Json, asU64 (jIndex args ("threshold")) = none →
      (extractDiceArgs args).2 = 0) ∧
    (∀ args : Json, ∀ n : ℕ, jIndex args ("dice_number") = .numU n →
      (extractDiceArgs args).1 = n % 256) ∧
    (∀ args : Json, ∀ n : ℕ, jIndex args ("threshold") = .numU n →
      (extractDiceArgs args).2 = n % 256) ∧
    extractDiceArgs (.obj [("dice_number", .numU 256), ("threshold", .numU 1)]) = (0, 1) ∧
    (∀ (faces : ℕ → ℕ) (fuel : ℕ),
      handleRollDice (.obj [("dice_number", .numU 256), ("threshold", .numU 1)]) faces fuel =
        some ⟨0, 0, false, false, false⟩) := by
  refine ⟨?_, ?_, ?_, ?_, ?_, by decide, ?_⟩
  · intro fields h
    simp [extractDiceArgs, jIndex, h, asU64, u8wrap]
  · intro args h
    simp [extractDiceArgs, h, u8wrap]
  · intro args h
    simp [extractDiceArgs, h, u8wrap]
  · intro args n h
    simp [extractDiceArgs, h, asU64, u8wrap]
  · intro args n h
    simp [extractDiceArgs, h, asU64, u8wrap]
  · intro faces fuel
    have he : extractDiceArgs (.obj [("dice_number", .numU 256), ("threshold", .numU 1)]) =
        (0, 1) := by decide
    unfold handleRollDice
    rw [he]
    simpa using roll_zero_dice faces fuel 1

end Sharad
